import Mathlib

/-!
# Verification of TheodoreServer (src/theodore.py)

A shallow embedding of the long-polling pub-sub broker in `src/theodore.py`
(classes `Message`, `Channel`, `TheodoreServer` and the `get_multichannel`
request handler), together with theorems settling the frozen claims about it.

Modelling conventions:

* The program runs on a single-threaded asyncio event loop; coroutines only
  interleave at `await` points.  Synchronous methods (`Channel.push`,
  `Channel._get_next_id`, `TheodoreServer.get_channel`) are embedded as pure
  state transformers `Channel → Channel × result`.
* A Python `asyncio.Future` is embedded as `Fut`: an identity (`id`, standing
  for the object identity of the future) and its state (`result = none` means
  pending, `some m` means `done()` with result `m`).
* The suspension of a coroutine awaiting `Channel.get_next` is embedded by a
  trace parameter `delivered : List Message`: the successive values its
  `await self.get_next()` calls produced, in order (each `get_next` call is
  resolved by exactly one push, so the trace is the sequence of messages of
  the pushes that occurred, in push order, while the coroutine was waiting).
  A function that returns `none` on a trace is still suspended at its end.
* `Channel.messages` (a Python `dict` keyed by the assigned ids) is embedded
  as an association list in insertion order; keys are never overwritten
  because assigned ids are fresh, so appending is faithful to `dict` update.
* Python exceptions are made explicit with `Except PyExc`.
* The payload (`bytes` in Python) is opaque to the core and embedded as
  `String`; the event-loop fields `_loop` and the `start_date` epoch stamp
  carry no logic relevant to the claims and are omitted.
-/

namespace Theodore

/-- Python exception classes that the embedded code can raise or catch. -/
inductive PyExc where
  /-- builtin `ValueError`, raised e.g. by `int()` on an unparseable string
  and by `asyncio.wait` on an empty set of futures. -/
  | valueError
  /-- `asyncio.TimeoutError`, the exception `asyncio.wait_for` raises when
  the deadline fires.  In every Python version that still accepts the
  `loop=` keyword arguments this module uses (Python ≤ 3.9),
  `asyncio.TimeoutError` is `concurrent.futures.TimeoutError`, a direct
  subclass of `Exception`. -/
  | asyncioTimeoutError
  /-- the builtin `TimeoutError`, a subclass of `OSError`.  This is what the
  bare name `TimeoutError` denotes in `src/theodore.py`, which imports no
  other binding for that name. -/
  | builtinTimeoutError
deriving DecidableEq

/-- Python `isinstance(e, TimeoutError)` for the builtin `TimeoutError`:
of the classes above only the builtin `TimeoutError` itself is an instance
(`asyncio.TimeoutError` is unrelated to the `OSError` hierarchy in the
Python versions this module's `loop=` keyword arguments exist in). -/
def PyExc.isBuiltinTimeoutError : PyExc → Bool
  | .builtinTimeoutError => true
  | _ => false

/-- `class Message` (src/theodore.py lines 56-62): channel name, assigned
sequence id, opaque payload. -/
structure Message where
  channel_name : String
  msg_id : Nat
  data : String
deriving DecidableEq

/-- An `asyncio.Future` held in a channel's waiter registry.  `id` stands for
the Python object identity of the future (distinct `Future()` objects never
compare equal); `result = none` is a pending future, `result = some m` a
future on which `set_result m` was called (`fut.done()` is true). -/
structure Fut where
  id : Nat
  result : Option Message
deriving DecidableEq

/-- `fut.done()`. -/
def Fut.done (f : Fut) : Bool := f.result.isSome

/-- `class Channel` state (src/theodore.py lines 70-78): `waiters` is the
`collections.deque` of pending-or-resolved futures in registration order,
`messages` the id-keyed store in insertion order, `next_id` the counter
(starts at 0). -/
structure Channel where
  name : String
  waiters : List Fut
  messages : List (Nat × Message)
  next_id : Nat
deriving DecidableEq

/-- `Channel.__init__` (lines 70-78): empty registry, empty store,
`next_id = 0`. -/
def Channel.new (name : String) : Channel :=
  { name := name, waiters := [], messages := [], next_id := 0 }

/-- `Channel._get_next_id` (lines 98-100): increment `next_id`, then return
it — so after assigning id `k` the stored `next_id` equals `k`, the most
recently assigned id (not the next one to assign). -/
def Channel.get_next_id (c : Channel) : Nat × Channel :=
  (c.next_id + 1, { c with next_id := c.next_id + 1 })

/-- `Channel.push` (lines 102-107): build a `Message` with the fresh id,
store it under that id, then `set_result` that exact message on every
not-yet-done future in `waiters` — without removing anything from the
registry.  Returns the updated channel and the `Message` it created (the
Python method mutates in place and returns `None`; the message is returned
here so theorems can name it). -/
def Channel.push (c : Channel) (data : String) : Channel × Message :=
  let msg_id := c.next_id + 1
  let message : Message := ⟨c.name, msg_id, data⟩
  ({ c with
      next_id := msg_id,
      messages := c.messages ++ [(msg_id, message)],
      waiters := c.waiters.map fun f => if f.done then f else ⟨f.id, some message⟩ },
   message)

/-- First half of `Channel.get_next` (lines 83-84): create a fresh pending
future (`fid` names its identity) and append it to the `waiters` deque.  The
coroutine then suspends on `await fut`. -/
def Channel.get_next_register (c : Channel) (fid : Nat) : Channel :=
  { c with waiters := c.waiters ++ [⟨fid, none⟩] }

/-- Second half of `Channel.get_next` (lines 85-88): when the awaiting
coroutine resumes (after some push resolved its future, or on
cancellation), the `finally` block runs `self.waiters.remove(fut)` —
removing the first registry entry identical to the future — and the
coroutine returns the future's result.  This runs strictly after the
resolving `push` returned, at the next scheduling point of the loop. -/
def Channel.get_next_resume (c : Channel) (fid : Nat) : Channel × Option Message :=
  match c.waiters.find? (fun f => f.id = fid) with
  | some f => ({ c with waiters := c.waiters.eraseP (fun g => g.id = fid) }, f.result)
  | none => (c, none)

/-- The value an entire `Channel.get_next` call produces: the message of the
first push that occurred after its registration (that push resolves the
pending future with exactly its own message; `delivered` is the trace of
pushes after registration, in order).  `none` = no push yet, still
suspended. -/
def Channel.get_next_result (delivered : List Message) : Option Message :=
  delivered.head?

/-- `msg_id in self.messages` / `self.messages[msg_id]` (line 91): look the
probe up among the (natural-number) keys.  The probe is an `Int` because
`TheodoreServer.get` can pass `int(min_id)` of a negative token, or
`next_id - 1 = -1` on a fresh channel. -/
def Channel.lookupMessage (c : Channel) (msg_id : Int) : Option Message :=
  (c.messages.find? fun p => (p.1 : Int) = msg_id).map Prod.snd

/-- The retry loop of `Channel.get_by_id` (lines 93-96) as a function of the
trace of messages its successive `await self.get_next()` calls produced:
return the first delivered message whose id is `>= msg_id`; `none` = every
delivered message was below the target and the loop is awaiting again. -/
def getByIdLoop (msg_id : Int) : List Message → Option Message
  | [] => none
  | m :: rest => if msg_id ≤ (m.msg_id : Int) then some m else getByIdLoop msg_id rest

/-- `Channel.get_by_id` (lines 90-96): if the target id is already in the
store, return that stored message immediately (the trace is not consumed:
no suspension); otherwise enter the retry loop.  A `none` result means the
call is still suspended after consuming the whole trace `delivered`. -/
def Channel.get_by_id (c : Channel) (msg_id : Int) (delivered : List Message) :
    Option Message :=
  match c.lookupMessage msg_id with
  | some m => some m
  | none => getByIdLoop msg_id delivered

/-- Decimal digit run → value; `none` unless the character list is a
non-empty all-digit run. -/
def parseDigits (cs : List Char) : Option Nat :=
  if cs = [] then none
  else if cs.all Char.isDigit then
    some (cs.foldl (fun n c => 10 * n + (c.toNat - 48)) 0)
  else none

/-- Surrounding-whitespace stripping, as `int()` applies to its argument. -/
def stripWhitespace (cs : List Char) : List Char :=
  ((cs.dropWhile Char.isWhitespace).reverse.dropWhile Char.isWhitespace).reverse

/-- Models the builtin `int(s)` on a selector token: surrounding whitespace
stripped, then an optional sign followed by a non-empty run of decimal
digits; any other shape raises `ValueError` (`none` here).  (Python's
`int()` additionally accepts digit-group underscores and non-ASCII digits,
which query-string selector tokens do not use.) -/
def pyInt (s : String) : Option Int :=
  match stripWhitespace s.data with
  | '-' :: rest => (parseDigits rest).map fun n => -(n : Int)
  | '+' :: rest => (parseDigits rest).map fun n => (n : Int)
  | cs => (parseDigits cs).map fun n => (n : Int)

/-- Where lines 143-149 of `TheodoreServer.get` dispatch the call. -/
inductive Dispatch where
  /-- `future = channel.get_next()` -/
  | waitNext
  /-- `future = channel.get_by_id(target)` -/
  | waitById (target : Int)
deriving DecidableEq

/-- The selector dispatch of `TheodoreServer.get` (lines 143-149):
`min_id == 'next' or min_id == 'NaN'` → `get_next`; `min_id is None` →
`get_by_id(channel.next_id - 1)` (Python int arithmetic, so `-1` on a fresh
channel); otherwise `get_by_id(int(min_id))`, where `int` raises
`ValueError` on an unparseable token. -/
def TheodoreServer.getDispatch (channel : Channel) (min_id : Option String) :
    Except PyExc Dispatch :=
  match min_id with
  | some s =>
      if s = "next" ∨ s = "NaN" then .ok .waitNext
      else
        match pyInt s with
        | some n => .ok (.waitById n)
        | none => .error .valueError
  | none => .ok (.waitById ((channel.next_id : Int) - 1))

/-- Outcome of `await wait_for(future, timeout, loop=self._loop)` (line
151): either the wrapped coroutine completed with a message before the
deadline, or the deadline fired first — in which case `wait_for` raises
`asyncio.TimeoutError` (asyncio's documented contract).  A `timeout` of
`None` installs no deadline, so only `completed` can occur. -/
inductive WaitForOutcome where
  | completed (m : Message)
  | deadlineFired
deriving DecidableEq

/-- Lines 150-153 of `TheodoreServer.get`:
`try: return await wait_for(future, timeout, loop=self._loop)` followed by
`except TimeoutError: return None`.  The handler catches a raised exception
`e` iff `isinstance(e, TimeoutError)` holds for the builtin `TimeoutError`;
an uncaught exception propagates out of `get`. -/
def TheodoreServer.get_await (outcome : WaitForOutcome) : Except PyExc (Option Message) :=
  match outcome with
  | .completed m => .ok (some m)
  | .deadlineFired =>
      if PyExc.asyncioTimeoutError.isBuiltinTimeoutError then .ok none
      else .error .asyncioTimeoutError

/-- One pending single-channel `self.get(channel_name, min_id)` started by
`get_multiple` (line 127) — started with the default `timeout=None`, so it
can only complete by producing a message (or raising). -/
structure GetCall where
  channel_name : String
  min_id : Option String
deriving DecidableEq

/-- `TheodoreServer.get_multiple` (lines 124-132): build one `get` coroutine
per entry of `channels`, then `await wait(futures, timeout=timeout,
return_when=FIRST_COMPLETED)`.  `asyncio.wait` raises `ValueError` when the
set of futures is empty; otherwise it returns the set `done` of tasks
completed when it returned — abstracted here by the parameter `done`, the
results of those tasks in the (unspecified) order the `for task in done`
loop iterates them ( `[]` when the `timeout` fired with no task complete).
The loop body `return task.result()` returns the first iterated result;
`return None` is reached only when `done` is empty. -/
def TheodoreServer.get_multiple (channels : List (String × Option String))
    (done : List Message) : Except PyExc (Option Message) :=
  let futures := channels.map fun p => GetCall.mk p.1 p.2
  if futures.isEmpty then .error .valueError
  else
    match done with
    | [] => .ok none
    | t :: _ => .ok (some t)

/-- What the `get_multichannel` request handler does with a request, up to
the call into the broker. -/
inductive MultiResponse where
  /-- `return web.Response(status=code)` before any broker call -/
  | status (code : Nat)
  /-- `await request.app['theodore'].get_multiple(channels, timeout=timeout)`
  with the given channel mapping; `no_wait = true` means `timeout = 0.1`,
  `false` means `timeout = None` -/
  | callsGetMultiple (channels : List (String × String)) (no_wait : Bool)
deriving DecidableEq

/-- Lines 193-203 of the `get_multichannel` handler: copy the query into a
dict (embedded as an association list with distinct keys), set a 0.1s
timeout and drop the entry when `no_wait` is present, reject with HTTP 422
when no channels remain — before any broker call — and otherwise call
`get_multiple` on the remaining mapping. -/
def get_multichannel_dispatch (query : List (String × String)) : MultiResponse :=
  let no_wait := query.any fun p => p.1 = "no_wait"
  let channels := if no_wait then query.filter (fun p => ¬p.1 = "no_wait") else query
  if channels.length = 0 then .status 422
  else .callsGetMultiple channels no_wait

/-- A sequence of `push` calls on one channel, in order (fresh pushes from
`TheodoreServer.push`, line 155-156, always go through `Channel.push`). -/
def pushAll (c : Channel) (l : List String) : Channel :=
  l.foldl (fun c d => (c.push d).1) c

/-- The store entries a run of pushes appends to a channel whose counter
stands at `k`: ids `k+1, k+2, …`, each message carrying its own id and
payload. -/
def expectedMessages (name : String) (k : Nat) : List String → List (Nat × Message)
  | [] => []
  | d :: rest => (k + 1, ⟨name, k + 1, d⟩) :: expectedMessages name (k + 1) rest

/-- Results of the embedded fallible operations are compared in closed
computations, so equality of `Except` values is made decidable. -/
instance {ε α : Type} [DecidableEq ε] [DecidableEq α] : DecidableEq (Except ε α) := fun a b =>
  match a, b with
  | .ok x, .ok y =>
      if h : x = y then .isTrue (by rw [h])
      else .isFalse (by intro hc; injection hc; contradiction)
  | .error x, .error y =>
      if h : x = y then .isTrue (by rw [h])
      else .isFalse (by intro hc; injection hc; contradiction)
  | .ok _, .error _ => .isFalse (by intro hc; exact Except.noConfusion hc)
  | .error _, .ok _ => .isFalse (by intro hc; exact Except.noConfusion hc)

/-- C1: the claim asserts that `get` with an absent selector targets the most
recently assigned id, so that after one push of `"a"` (id 1) it returns that
message without suspending.  Evaluating the code at that input: `next_id` is
already the most recently assigned id (1 after one push), so the dispatch
targets `next_id - 1 = 0`; id 0 is not in the store even though message 1
is, so the call registers a waiter and suspends (result `none` on the empty
delivery trace) — and a *subsequent* push (id 2) is what resolves it, with
that later message.  This contradicts the code's own docstring
(src/theodore.py lines 137-138: "None to get the last message (should
already have it, if channel is not empty)"), so the slip is in the code. -/
theorem c1_latest_selector_evaluation :
    (TheodoreServer.getDispatch (((Channel.new "ch").push "a").1) none =
      .ok (.waitById 0)) ∧
    ((((Channel.new "ch").push "a").1).messages = [(1, ⟨"ch", 1, "a"⟩)]) ∧
    (Channel.get_by_id (((Channel.new "ch").push "a").1) 0 [] = none) ∧
    (Channel.get_by_id (((Channel.new "ch").push "a").1) 0 [⟨"ch", 2, "b"⟩] =
      some ⟨"ch", 2, "b"⟩) :=
  ⟨rfl, rfl, rfl, rfl⟩

/-- C2, counterexample: the selector token `"abc"` is non-numeric and is not
`"next"`, yet `get` does not treat it as `"next"` — it reaches
`int('abc')`, which raises `ValueError`, so the call fails. -/
theorem c2_unparseable_selector_counterexample :
    TheodoreServer.getDispatch (Channel.new "ch") (some "abc") =
      .error .valueError ∧
    TheodoreServer.getDispatch (Channel.new "ch") (some "abc") ≠
      .ok .waitNext := by
  exact ⟨rfl, by decide⟩

/-- C2, amended: only the two literal tokens `"next"` and `"NaN"` dispatch
to `channel.get_next()`; every other token is handed to `int()`, so a
non-numeric token raises `ValueError` (the call fails rather than falling
back to `"next"`), and a numeric token dispatches to `get_by_id` on its
value. -/
theorem c2_selector_dispatch (c : Channel) (s : String) :
    ((s = "next" ∨ s = "NaN") →
      TheodoreServer.getDispatch c (some s) = .ok .waitNext) ∧
    (¬(s = "next" ∨ s = "NaN") → pyInt s = none →
      TheodoreServer.getDispatch c (some s) = .error .valueError) ∧
    (∀ n : Int, ¬(s = "next" ∨ s = "NaN") → pyInt s = some n →
      TheodoreServer.getDispatch c (some s) = .ok (.waitById n)) := by
  refine ⟨fun h => ?_, fun h hp => ?_, fun n h hp => ?_⟩
  · simp [TheodoreServer.getDispatch, h]
  · simp [TheodoreServer.getDispatch, h, hp]
  · simp [TheodoreServer.getDispatch, h, hp]

/-- Witness for `c2_selector_dispatch`: the reserved token `"NaN"`
dispatches to `get_next`, the non-numeric token `"zzz"` raises
`ValueError`, and the numeric token `"7"` dispatches to `get_by_id 7`. -/
theorem c2_selector_dispatch_witness :
    TheodoreServer.getDispatch (Channel.new "w") (some "NaN") = .ok .waitNext ∧
    TheodoreServer.getDispatch (Channel.new "w") (some "zzz") =
      .error .valueError ∧
    TheodoreServer.getDispatch (Channel.new "w") (some "7") =
      .ok (.waitById 7) :=
  ⟨(c2_selector_dispatch (Channel.new "w") "NaN").1 (Or.inr rfl),
   (c2_selector_dispatch (Channel.new "w") "zzz").2.1 (by decide) rfl,
   (c2_selector_dispatch (Channel.new "w") "7").2.2 7 (by decide) rfl⟩

/-- C3: the claim says a timed-out `get` returns the absent value and never
propagates an exception.  In the code, when the deadline fires,
`wait_for` raises `asyncio.TimeoutError`, but the handler on line 152 is
`except TimeoutError:` — the *builtin* `TimeoutError` (an `OSError`
subclass), which `asyncio.TimeoutError` is not an instance of in the Python
versions whose `loop=` keyword arguments this module uses.  The exception
therefore escapes `get` instead of becoming `None`: the `try/except`'s own
intent (return `None` on timeout) matches the claim, and the code's
exception class is the slip. -/
theorem c3_timeout_evaluation :
    TheodoreServer.get_await .deadlineFired = .error .asyncioTimeoutError ∧
    TheodoreServer.get_await .deadlineFired ≠ .ok none := by
  exact ⟨rfl, by decide⟩

/-- `push` touches only the states of registered futures, never the shape of
the registry: the deque after a push has the same length. -/
theorem push_waiters_length (c : Channel) (d : String) :
    (c.push d).1.waiters.length = c.waiters.length := by
  simp [Channel.push]

/-- C4, counterexample: one waiter (future identity 0) is registered on a
fresh channel, then `push "a"` runs to completion.  The push resolved that
waiter (its future is done, holding the pushed message) — yet the handle is
still in the waiter registry: `push` removes nothing; the `finally` of
`get_next` does, later, when the waiter's coroutine resumes. -/
theorem c4_push_keeps_resolved_waiter_registered :
    (((Channel.new "ch").get_next_register 0).push "a").1.waiters =
      [⟨0, some ⟨"ch", 1, "a"⟩⟩] :=
  rfl

/-- C4, amended: `push` resolves registered pending futures in place and
removes nothing from the registry (the registry's identities are unchanged
across a push); each waiter deregisters its own handle when its coroutine
resumes — the `finally: self.waiters.remove(fut)` of `get_next` — which
runs only after the resolving push has completed, returning the result its
future was resolved with and shrinking the registry by exactly that one
handle. -/
theorem c4_waiter_removed_on_resume (c : Channel) (d : String) (fid : Nat) (f : Fut)
    (hf : c.waiters.find? (fun g => g.id = fid) = some f) :
    ((c.push d).1.waiters.map Fut.id = c.waiters.map Fut.id) ∧
    ((c.get_next_resume fid).2 = f.result) ∧
    ((c.get_next_resume fid).1.waiters.length + 1 = c.waiters.length) := by
  refine ⟨?_, ?_, ?_⟩
  · simp only [Channel.push, List.map_map]
    apply List.map_congr_left
    intro a _
    by_cases hd : a.done <;> simp [hd]
  · simp [Channel.get_next_resume, hf]
  · have hm := List.mem_of_find?_eq_some hf
    have hp := List.find?_some hf
    have hl := @List.length_eraseP_of_mem _ c.waiters f
      (fun g => decide (g.id = fid)) hm hp
    have hpos : 0 < c.waiters.length := List.length_pos.mpr (List.ne_nil_of_mem hm)
    have hw : (c.get_next_resume fid).1.waiters = c.waiters.eraseP fun g => g.id = fid := by
      simp [Channel.get_next_resume, hf]
    rw [hw, hl]
    omega

/-- Witness for `c4_waiter_removed_on_resume`: on a channel whose single
waiter was resolved by the push of `"a"` (id 1), resuming that waiter
returns the pushed message and leaves the registry empty. -/
theorem c4_waiter_removed_on_resume_witness :
    (((((Channel.new "ch").get_next_register 0).push "a").1.get_next_resume 0).2 =
      some ⟨"ch", 1, "a"⟩) ∧
    ((((((Channel.new "ch").get_next_register 0).push "a").1.get_next_resume 0).1.waiters.length) + 1 =
      (((Channel.new "ch").get_next_register 0).push "a").1.waiters.length) := by
  have h := c4_waiter_removed_on_resume
    ((((Channel.new "ch").get_next_register 0).push "a").1) "b" 0
    ⟨0, some ⟨"ch", 1, "a"⟩⟩ (by decide)
  exact ⟨h.2.1, h.2.2⟩

/-- C7: a push resolves, with exactly the one message it creates, exactly
the registered-and-still-pending futures (position by position: a pending
future becomes done with that message, an already-done future is left
untouched with its old message — never resolved twice); the registry's
length is unchanged (no handle added or dropped); and a future registered
after the push enters the registry pending, untouched by that push. -/
theorem c7_push_broadcast (c : Channel) (d : String) (i : Nat)
    (h : i < c.waiters.length) :
    ((c.push d).1.waiters[i]? =
      some (if (c.waiters.get ⟨i, h⟩).done then c.waiters.get ⟨i, h⟩
            else ⟨(c.waiters.get ⟨i, h⟩).id, some (c.push d).2⟩)) ∧
    ((c.push d).1.waiters.length = c.waiters.length) ∧
    ((c.push d).2 = ⟨c.name, c.next_id + 1, d⟩) ∧
    (∀ fid : Nat,
      ((c.push d).1.get_next_register fid).waiters.getLast? = some ⟨fid, none⟩) := by
  refine ⟨?_, push_waiters_length c d, rfl, fun fid => ?_⟩
  · simp [Channel.push, List.getElem?_map, List.getElem?_eq_getElem h,
      List.get_eq_getElem]
  · simp [Channel.get_next_register, List.getLast?_concat]

/-- Witness for `c7_push_broadcast`: on a channel holding one waiter already
resolved by the push of `"a"` (id 1) and one still-pending waiter, pushing
`"b"` (id 2) resolves the pending waiter with message 2 and leaves the
already-resolved waiter holding message 1. -/
theorem c7_push_broadcast_witness :
    (((((((Channel.new "ch").get_next_register 0).push "a").1.get_next_register 1).push "b").1.waiters[1]?) =
      some ⟨1, some ⟨"ch", 2, "b"⟩⟩) ∧
    (((((((Channel.new "ch").get_next_register 0).push "a").1.get_next_register 1).push "b").1.waiters[0]?) =
      some ⟨0, some ⟨"ch", 1, "a"⟩⟩) := by
  refine ⟨?_, ?_⟩
  · exact ((c7_push_broadcast
      (((((Channel.new "ch").get_next_register 0).push "a").1.get_next_register 1))
      "b" 1 (by decide)).1).trans (by decide)
  · exact ((c7_push_broadcast
      (((((Channel.new "ch").get_next_register 0).push "a").1.get_next_register 1))
      "b" 0 (by decide)).1).trans (by decide)

/-- A run of pushes starting from any channel state: the name is unchanged,
the counter advances by the number of pushes, and the store grows by
exactly the run's entries (ids `next_id + 1, next_id + 2, …`). -/
theorem pushAll_spec (l : List String) : ∀ c : Channel,
    (pushAll c l).name = c.name ∧
    (pushAll c l).next_id = c.next_id + l.length ∧
    (pushAll c l).messages = c.messages ++ expectedMessages c.name c.next_id l := by
  induction l with
  | nil => intro c; simp [pushAll, expectedMessages]
  | cons d rest ih =>
    intro c
    have h := ih (c.push d).1
    have hstep : pushAll c (d :: rest) = pushAll (c.push d).1 rest := rfl
    have hname : (c.push d).1.name = c.name := rfl
    have hnext : (c.push d).1.next_id = c.next_id + 1 := rfl
    have hmsgs : (c.push d).1.messages =
        c.messages ++ [(c.next_id + 1, ⟨c.name, c.next_id + 1, d⟩)] := rfl
    refine ⟨?_, ?_, ?_⟩
    · rw [hstep, h.1, hname]
    · rw [hstep, h.2.1, hnext]
      simp [List.length_cons]
      omega
    · rw [hstep, h.2.2, hmsgs, hname, hnext]
      simp [expectedMessages]

/-- The ids a run of pushes assigns, read off its store entries: the dense
range starting just above the counter's starting value. -/
theorem expectedMessages_map_fst (name : String) (l : List String) :
    ∀ k : Nat, (expectedMessages name k l).map Prod.fst = List.range' (k + 1) l.length := by
  induction l with
  | nil => intro k; simp [expectedMessages]
  | cons d rest ih =>
    intro k
    simp [expectedMessages, List.range'_succ, ih (k + 1)]

/-- Entry `i` of a run's store entries: id `k + i + 1` carrying the `i`-th
payload. -/
theorem expectedMessages_getElem (name : String) (l : List String) :
    ∀ (k i : Nat) (h : i < l.length),
      (expectedMessages name k l)[i]? = some (k + i + 1, ⟨name, k + i + 1, l.get ⟨i, h⟩⟩) := by
  induction l with
  | nil => intro k i h; exact absurd h (by simp)
  | cons d rest ih =>
    intro k i h
    match i with
    | 0 => simp [expectedMessages]
    | j + 1 =>
      have hj : j < rest.length := by simpa using h
      have := ih (k + 1) j hj
      simp only [expectedMessages, List.getElem?_cons_succ, this]
      refine congrArg some ?_
      have harith : k + 1 + j + 1 = k + (j + 1) + 1 := by omega
      simp [harith]

/-- C5: pushing `n` payloads into a fresh channel assigns exactly the ids
`1, 2, …, n` in push order (the store's keys, in insertion order, are that
dense range and the counter ends at `n`), every pushed message is retained
in the store under its id with its own payload, and a single push only ever
extends the store (the old store is a prefix of the new one — it never
shrinks). -/
theorem c5_dense_ids_and_retention (name : String) (l : List String) :
    ((pushAll (Channel.new name) l).messages.map Prod.fst = List.range' 1 l.length) ∧
    ((pushAll (Channel.new name) l).next_id = l.length) ∧
    (∀ (i : Nat) (h : i < l.length),
      (pushAll (Channel.new name) l).messages[i]? =
        some (i + 1, ⟨name, i + 1, l.get ⟨i, h⟩⟩)) ∧
    (∀ (c : Channel) (d : String), c.messages <+: (c.push d).1.messages) := by
  have h := pushAll_spec l (Channel.new name)
  have hmsgs : (pushAll (Channel.new name) l).messages = expectedMessages name 0 l := by
    rw [h.2.2]; rfl
  refine ⟨?_, ?_, fun i hi => ?_, fun c d => ?_⟩
  · rw [hmsgs, expectedMessages_map_fst]
  · rw [h.2.1]; simp [Channel.new]
  · rw [hmsgs]
    have := expectedMessages_getElem name l 0 i hi
    simpa using this
  · have : (c.push d).1.messages = c.messages ++ [(c.next_id + 1, ⟨c.name, c.next_id + 1, d⟩)] := rfl
    rw [this]
    exact List.prefix_append _ _

/-- Witness for `c5_dense_ids_and_retention`: pushing `["a", "b"]` into a
fresh channel yields store keys `[1, 2]`, counter 2, and entry 1 is the
message with id 2 and payload `"b"`. -/
theorem c5_dense_ids_and_retention_witness :
    ((pushAll (Channel.new "ch") ["a", "b"]).messages.map Prod.fst = List.range' 1 2) ∧
    ((pushAll (Channel.new "ch") ["a", "b"]).messages[1]? =
      some (2, ⟨"ch", 2, "b"⟩)) := by
  have h := c5_dense_ids_and_retention "ch" ["a", "b"]
  exact ⟨h.1, (h.2.2.1 1 (by decide)).trans (by decide)⟩

/-- The retry loop of `get_by_id` returns the first delivered message
satisfying the `>=` check: it is `List.find?` of that predicate over the
delivery trace. -/
theorem getByIdLoop_eq_find (msg_id : Int) (l : List Message) :
    getByIdLoop msg_id l = l.find? fun m => decide (msg_id ≤ (m.msg_id : Int)) := by
  induction l with
  | nil => rfl
  | cons m rest ih =>
    by_cases hm : msg_id ≤ (m.msg_id : Int) <;>
      simp [getByIdLoop, List.find?_cons, hm, ih]

/-- C6: when the target id is already in the store, `get_by_id` returns that
stored message whatever the delivery trace is — in particular on the empty
trace, i.e. without suspending, and later deliveries cannot change the
result; when it is not, `get_by_id` returns the first *delivered* message
whose id is `>= target` (which need not be the message with id `= target`),
and is still suspended (`none`) while no delivered message satisfies it. -/
theorem c6_get_by_id (c : Channel) (k : Int) (delivered : List Message) :
    (∀ m : Message, c.lookupMessage k = some m →
      Channel.get_by_id c k delivered = some m) ∧
    (c.lookupMessage k = none →
      Channel.get_by_id c k delivered =
        delivered.find? fun m => decide (k ≤ (m.msg_id : Int))) := by
  refine ⟨fun m hm => ?_, fun hn => ?_⟩
  · simp [Channel.get_by_id, hm]
  · simp [Channel.get_by_id, hn, getByIdLoop_eq_find]

/-- Witness for `c6_get_by_id`: with messages 1 and 2 stored,
`get_by_id 1` returns message 1 from storage on the empty trace (no
suspension, and not message 2); with nothing stored, `get_by_id 2` over the
trace `[message 1, message 3]` skips message 1 and returns message 3, the
first delivery with id `>= 2`. -/
theorem c6_get_by_id_witness :
    (Channel.get_by_id (pushAll (Channel.new "ch") ["a", "b"]) 1 [] =
      some ⟨"ch", 1, "a"⟩) ∧
    (Channel.get_by_id (Channel.new "ch") 2 [⟨"ch", 1, "a"⟩, ⟨"ch", 3, "c"⟩] =
      some ⟨"ch", 3, "c"⟩) := by
  refine ⟨?_, ?_⟩
  · exact (c6_get_by_id (pushAll (Channel.new "ch") ["a", "b"]) 1 []).1
      ⟨"ch", 1, "a"⟩ (by decide)
  · exact ((c6_get_by_id (Channel.new "ch") 2
      [⟨"ch", 1, "a"⟩, ⟨"ch", 3, "c"⟩]).2 (by decide)).trans (by decide)

/-- C8: over a non-empty mapping, `get_multiple` builds one `get` call per
entry (the `futures` list is entrywise the entries' `get` calls); when the
race completes with at least one finished candidate, the call returns
exactly the single message of the first-iterated finished task — one
message even when several candidates finished "simultaneously" — and when
every candidate is still unfinished at the deadline (`done` empty) it
returns the absent value `none`, in both cases without raising. -/
theorem c8_race_to_first (channels : List (String × Option String))
    (done : List Message) (hne : channels ≠ []) :
    ((channels.map fun p => GetCall.mk p.1 p.2).length = channels.length) ∧
    (done = [] → TheodoreServer.get_multiple channels done = .ok none) ∧
    (∀ (t : Message) (rest : List Message), done = t :: rest →
      TheodoreServer.get_multiple channels done = .ok (some t)) := by
  have hfe : (channels.map fun p => GetCall.mk p.1 p.2).isEmpty = false := by
    cases channels with
    | nil => exact absurd rfl hne
    | cons a l => rfl
  refine ⟨by simp, fun hd => ?_, fun t rest hd => ?_⟩
  · simp [TheodoreServer.get_multiple, hfe, hd]
  · simp [TheodoreServer.get_multiple, hfe, hd]

/-- Witness for `c8_race_to_first`: racing two channels where both
candidates finished (channel `"b"`'s message iterated first) returns
exactly channel `"b"`'s single message; with no candidate finished the
result is the absent value. -/
theorem c8_race_to_first_witness :
    (TheodoreServer.get_multiple [("a", some "next"), ("b", some "next")]
      [⟨"b", 1, "x"⟩, ⟨"a", 1, "y"⟩] = .ok (some ⟨"b", 1, "x"⟩)) ∧
    (TheodoreServer.get_multiple [("a", some "next"), ("b", some "next")] [] =
      .ok none) := by
  refine ⟨?_, ?_⟩
  · exact (c8_race_to_first [("a", some "next"), ("b", some "next")]
      [⟨"b", 1, "x"⟩, ⟨"a", 1, "y"⟩] (by decide)).2.2 ⟨"b", 1, "x"⟩
      [⟨"a", 1, "y"⟩] rfl
  · exact (c8_race_to_first [("a", some "next"), ("b", some "next")] []
      (by decide)).2.1 rfl

/-- C9, counterexample: `TheodoreServer.get_multiple` itself, called on an
empty mapping, hands the empty set of futures to `asyncio.wait`, which
raises `ValueError` — it attempts the wait and fails, and returns neither a
distinguishable rejection value nor the absent value. -/
theorem c9_get_multiple_empty_raises :
    TheodoreServer.get_multiple [] [] = .error .valueError ∧
    TheodoreServer.get_multiple [] [] ≠ .ok none := by
  exact ⟨rfl, by decide⟩

/-- C9, amended: the empty-mapping rejection lives in the request handler
`get_multichannel`, not in the broker: a request with no channel entries
left (after removing `no_wait`) is answered with HTTP 422 — distinct from
the 404 used for the absent result — before any broker call, and the
handler only ever invokes `get_multiple` with a non-empty mapping (so the
`ValueError` path of `c9_get_multiple_empty_raises` is unreachable through
the handler). -/
theorem c9_handler_rejects_empty (query : List (String × String)) :
    (query = [] → get_multichannel_dispatch query = .status 422) ∧
    (∀ (chs : List (String × String)) (nw : Bool),
      get_multichannel_dispatch query = .callsGetMultiple chs nw → chs ≠ []) ∧
    (MultiResponse.status 422 ≠ MultiResponse.status 404) := by
  refine ⟨fun hq => by rw [hq]; rfl, fun chs nw hcall hnil => ?_, by decide⟩
  subst hnil
  dsimp only [get_multichannel_dispatch] at hcall
  split at hcall <;> try split at hcall
  all_goals
    first
      | exact MultiResponse.noConfusion hcall
      | (rename_i hlen
         exact hlen (by
           rw [((MultiResponse.callsGetMultiple.injEq _ _ _ _).mp hcall).1]
           rfl))

/-- Witness for `c9_handler_rejects_empty`: the empty query is answered 422,
and a query whose only entry is `no_wait` can only reach `get_multiple`
with a non-empty mapping (vacuously — it is in fact also answered 422). -/
theorem c9_handler_rejects_empty_witness :
    get_multichannel_dispatch [] = .status 422 ∧
    MultiResponse.status 422 ≠ MultiResponse.status 404 := by
  exact ⟨(c9_handler_rejects_empty []).1 rfl, (c9_handler_rejects_empty []).2.2⟩

/-- No store ever holds a message under a negative id: the keys are the
assigned (natural-number) ids, so a negative probe misses. -/
theorem lookupMessage_neg (c : Channel) (n : Int) (hn : n < 0) :
    c.lookupMessage n = none := by
  unfold Channel.lookupMessage
  rw [List.find?_eq_none.mpr]
  · rfl
  · intro p _
    simp only [decide_eq_true_eq]
    intro hp
    have : (0 : Int) ≤ (p.1 : Int) := Int.natCast_nonneg _
    omega

/-- C10: a selector token parsing as a negative integer `n` is accepted
without error — `get` dispatches it to `get_by_id n` — and since no
(natural-number) id in any store matches a negative probe, the call enters
the retry loop, where every delivered message trivially passes the
`>= n` check: the call is suspended until the first message pushed after it
and resolves with exactly that message, i.e. it behaves as a `"next"`
wait. -/
theorem c10_negative_selector (c : Channel) (s : String) (n : Int)
    (delivered : List Message) (hs : pyInt s = some n) (hn : n < 0) :
    (TheodoreServer.getDispatch c (some s) = .ok (.waitById n)) ∧
    (Channel.get_by_id c n delivered = Channel.get_next_result delivered) := by
  have hnotkw : ¬(s = "next" ∨ s = "NaN") := by
    rintro (rfl | rfl)
    · rw [show pyInt "next" = none from rfl] at hs; exact Option.noConfusion hs
    · rw [show pyInt "NaN" = none from rfl] at hs; exact Option.noConfusion hs
  refine ⟨by simp [TheodoreServer.getDispatch, hnotkw, hs], ?_⟩
  rw [Channel.get_by_id, lookupMessage_neg c n hn]
  cases delivered with
  | nil => rfl
  | cons m rest =>
    have hm : n ≤ (m.msg_id : Int) := by
      have : (0 : Int) ≤ (m.msg_id : Int) := Int.natCast_nonneg _
      omega
    simp [getByIdLoop, Channel.get_next_result, hm]

/-- Witness for `c10_negative_selector`: the token `"-5"` dispatches to
`get_by_id (-5)` without failing, and on a fresh channel the call resolves
with the first message delivered after it. -/
theorem c10_negative_selector_witness :
    (TheodoreServer.getDispatch (Channel.new "ch") (some "-5") =
      .ok (.waitById (-5))) ∧
    (Channel.get_by_id (Channel.new "ch") (-5) [⟨"ch", 1, "a"⟩] =
      Channel.get_next_result [⟨"ch", 1, "a"⟩]) :=
  c10_negative_selector (Channel.new "ch") "-5" (-5) [⟨"ch", 1, "a"⟩] rfl
    (by decide)

end Theodore
